import Mathlib

/-!
# Verification of `flakely` (`src/flakely.py`)

A shallow embedding of the `Flakely` distributed unique-identifier generator
and proofs about its generation/validation algorithm.

Bytes are modelled as `List Nat` with values below 256.  Python's
`int.to_bytes(n, "little")`, which raises `OverflowError` when the integer
does not fit in `n` unsigned bytes (or is negative), is modelled as an
`Option`-returning encoder.  Time (`time.time()`) is modelled by passing the
current tick as an explicit argument; the mutable instance state
(`_last_generated`, `_generation_counter`) is threaded explicitly.
SHA-256 (`hashlib.sha256`) is implemented in full over byte lists.
-/

namespace Flakely

/-! ## Byte encoding (Python `int.to_bytes` / `int.from_bytes`) -/

/-- Little-endian encoding of `v` into exactly `n` bytes, truncating the
value modulo `2 ^ (8 * n)` (the raw digit expansion). -/
def toBytesLE : Nat → Nat → List Nat
  | 0, _ => []
  | n + 1, v => v % 256 :: toBytesLE n (v / 256)

/-- Little-endian interpretation of a byte list as a natural number
(Python `int.from_bytes(bytes, "little")`). -/
def fromBytesLE (l : List Nat) : Nat :=
  l.foldr (fun b acc => b + 256 * acc) 0

/-- Python `value.to_bytes(n, "little")` for a nonnegative `value`:
`some` of the `n`-byte little-endian encoding when the value fits,
`none` (an `OverflowError`) otherwise. -/
def toBytes? (n v : Nat) : Option (List Nat) :=
  if v < 2 ^ (8 * n) then some (toBytesLE n v) else none

/-- Python `value.to_bytes(n, "little")` for an arbitrary integer `value`:
raises (`none`) when the value is negative or does not fit in `n` bytes. -/
def intToBytes? (n : Nat) (v : Int) : Option (List Nat) :=
  if 0 ≤ v ∧ v < 2 ^ (8 * n) then some (toBytesLE n v.toNat) else none

/-- Big-endian encoding of `v` into exactly `n` bytes. -/
def toBytesBE (n v : Nat) : List Nat :=
  (toBytesLE n v).reverse

/-- Big-endian interpretation of a byte list as a natural number. -/
def fromBytesBE (l : List Nat) : Nat :=
  l.foldl (fun acc b => acc * 256 + b) 0

/-! ## SHA-256 (`hashlib.sha256`), over byte lists -/

/-- Truncation to a 32-bit word. -/
def w32 (x : Nat) : Nat := x % 4294967296

/-- Right rotation of a 32-bit word by `n` bits. -/
def rotr32 (n x : Nat) : Nat :=
  w32 (x / 2 ^ n + x % 2 ^ n * 2 ^ (32 - n))

/-- SHA-256 `Ch(e, f, g)`. -/
def sha2Ch (e f g : Nat) : Nat := (e &&& f) ^^^ ((e ^^^ 4294967295) &&& g)

/-- SHA-256 `Maj(a, b, c)`. -/
def sha2Maj (a b c : Nat) : Nat := (a &&& b) ^^^ (a &&& c) ^^^ (b &&& c)

/-- SHA-256 big sigma 0. -/
def bigS0 (x : Nat) : Nat := rotr32 2 x ^^^ rotr32 13 x ^^^ rotr32 22 x

/-- SHA-256 big sigma 1. -/
def bigS1 (x : Nat) : Nat := rotr32 6 x ^^^ rotr32 11 x ^^^ rotr32 25 x

/-- SHA-256 small sigma 0. -/
def smallS0 (x : Nat) : Nat := rotr32 7 x ^^^ rotr32 18 x ^^^ x / 2 ^ 3

/-- SHA-256 small sigma 1. -/
def smallS1 (x : Nat) : Nat := rotr32 17 x ^^^ rotr32 19 x ^^^ x / 2 ^ 10

/-- The 64 SHA-256 round constants (FIPS 180-4), written in decimal. -/
def sha2K : List Nat :=
  [1116352408, 1899447441, 3049323471, 3921009573, 961987163,
   1508970993, 2453635748, 2870763221, 3624381080, 310598401,
   607225278, 1426881987, 1925078388, 2162078206, 2614888103,
   3248222580, 3835390401, 4022224774, 264347078, 604807628,
   770255983, 1249150122, 1555081692, 1996064986, 2554220882,
   2821834349, 2952996808, 3210313671, 3336571891, 3584528711,
   113926993, 338241895, 666307205, 773529912, 1294757372,
   1396182291, 1695183700, 1986661051, 2177026350, 2456956037,
   2730485921, 2820302411, 3259730800, 3345764771, 3516065817,
   3600352804, 4094571909, 275423344, 430227734, 506948616,
   659060556, 883997877, 958139571, 1322822218, 1537002063,
   1747873779, 1955562222, 2024104815, 2227730452, 2361852424,
   2428436474, 2756734187, 3204031479, 3329325298]

/-- The SHA-256 initial hash value (eight 32-bit words), in decimal. -/
def sha2H0 : List Nat :=
  [1779033703, 3144134277, 1013904242, 2773480762, 1359893119,
   2600822924, 528734635, 1541459225]

/-- SHA-256 message padding: append `0x80`, zero bytes up to 56 mod 64,
then the bit length as an 8-byte big-endian integer. -/
def sha256pad (msg : List Nat) : List Nat :=
  msg ++ [128] ++ List.replicate ((120 - (msg.length + 1) % 64) % 64) 0
      ++ toBytesBE 8 (msg.length * 8)

/-- The 16 initial schedule words of a 64-byte chunk (big-endian). -/
def chunkWords (chunk : List Nat) : List Nat :=
  (List.range 16).map fun i => fromBytesBE ((chunk.drop (4 * i)).take 4)

/-- Extend a message-schedule word list by `n` further words. -/
def extendW (w : List Nat) : Nat → List Nat
  | 0 => w
  | n + 1 =>
    let w' := extendW w n
    let j := w'.length
    w' ++ [w32 (smallS1 (w'.getD (j - 2) 0) + w'.getD (j - 7) 0 +
                smallS0 (w'.getD (j - 15) 0) + w'.getD (j - 16) 0)]

/-- One round of the SHA-256 compression function on the working
variables `[a, b, c, d, e, f, g, h]`. -/
def compressRound (st : List Nat) (wi ki : Nat) : List Nat :=
  let a := st.getD 0 0
  let b := st.getD 1 0
  let c := st.getD 2 0
  let d := st.getD 3 0
  let e := st.getD 4 0
  let f := st.getD 5 0
  let g := st.getD 6 0
  let h := st.getD 7 0
  let t1 := w32 (h + bigS1 e + sha2Ch e f g + ki + wi)
  let t2 := w32 (bigS0 a + sha2Maj a b c)
  [w32 (t1 + t2), a, b, c, w32 (d + t1), e, f, g]

/-- The SHA-256 compression function: process one 64-byte chunk into the
running hash value `h`. -/
def compress (h : List Nat) (chunk : List Nat) : List Nat :=
  let w := extendW (chunkWords chunk) 48
  let st := (List.zip w sha2K).foldl (fun st p => compressRound st p.1 p.2) h
  List.zipWith (fun x y => w32 (x + y)) h st

/-- Fold the compression function over consecutive 64-byte chunks. -/
def processChunks (h : List Nat) (msg : List Nat) : List Nat :=
  if hm : msg = [] then h
  else processChunks (compress h (msg.take 64)) (msg.drop 64)
termination_by msg.length
decreasing_by
  simp only [List.length_drop]
  have : 0 < msg.length := List.length_pos.mpr hm
  omega

/-- SHA-256 of a byte list: pad, compress chunk by chunk, and serialize the
eight final words big-endian (32 bytes). -/
def sha256 (msg : List Nat) : List Nat :=
  (processChunks sha2H0 (sha256pad msg)).foldr
    (fun wrd acc => toBytesBE 4 wrd ++ acc) []

/-! ## The `Flakely` generator -/

/-- Class constants of `Flakely` (field widths in bytes). -/
def COUNTER_SIZE : Nat := 2

/-- Class constant `Flakely.DEVICE_ID_SIZE`. -/
def DEVICE_ID_SIZE : Nat := 4

/-- Class constant `Flakely.IDENTIFIER_SIZE`. -/
def IDENTIFIER_SIZE : Nat := 4

/-- Class constant `Flakely.PROCESS_ID_SIZE`. -/
def PROCESS_ID_SIZE : Nat := 4

/-- Class constant `Flakely.SIGNATURE_SIZE`. -/
def SIGNATURE_SIZE : Nat := 32

/-- Class constant `Flakely.TICK_SIZE`. -/
def TICK_SIZE : Nat := 4

/-- An instance of the `Flakely` class: the fixed identity
(`device`, `process`, `secret`) plus the mutable sequencer state
(`_last_generated`, `_generation_counter`). -/
structure State where
  device : Nat
  process : Nat
  secret : List Nat
  last_generated : Nat
  generation_counter : Nat
deriving DecidableEq, Repr

/-- Python's `os.P_PID`: the POSIX `waitid` id-type constant exposed by the `os`
module.  On Linux `P_ALL = 0`, `P_PID = 1`, `P_PGID = 2`, so its value is
the fixed constant 1 in every process; it is not the current process id
(`os.getpid()`). -/
def os_P_PID : Nat := 1

/-- The constructor `Flakely.__init__`: `device` defaults to a random 32-bit value
(`secrets.randbelow(2**32)`, modelled by the environment-supplied
`envRandom`), `process` defaults to the constant `os.P_PID`, and the
sequencer state starts at `_last_generated = 0`,
`_generation_counter = 0`. -/
def init (device : Option Nat) (process : Option Nat) (secret : List Nat)
    (envRandom : Nat) : State :=
  { device := device.getD envRandom
    process := process.getD os_P_PID
    secret := secret
    last_generated := 0
    generation_counter := 0 }

/-- The method `Flakely.get_signature`: SHA-256 over the payload bytes followed by the
secret bytes. -/
def get_signature (s : State) (flake : List Nat) : List Nat :=
  sha256 (flake ++ s.secret)

/-- The method `Flakely.update_counter`: increment the counter when the tick is
unchanged, otherwise store the new tick and reset the counter to 0. -/
def update_counter (s : State) (tick : Nat) : State :=
  if tick = s.last_generated then
    { s with generation_counter := s.generation_counter + 1 }
  else
    { s with last_generated := tick, generation_counter := 0 }

/-- The method `Flakely.generate_bytes`: read the tick (passed explicitly, standing
for `self.get_tick()`), advance the counter, then serialize identifier,
counter, process, device and tick little-endian and append the signature.
Each `to_bytes` call can raise `OverflowError` (`none`); the sequencer
state has already been updated in every case. -/
def generate_bytes (s : State) (tick : Nat) (identifier : Nat) :
    State × Option (List Nat) :=
  let s' := update_counter s tick
  let flake? : Option (List Nat) := do
    let idB ← toBytes? IDENTIFIER_SIZE identifier
    let cB ← toBytes? COUNTER_SIZE s'.generation_counter
    let pB ← toBytes? PROCESS_ID_SIZE s'.process
    let dB ← toBytes? DEVICE_ID_SIZE s'.device
    let tB ← toBytes? TICK_SIZE tick
    pure (idB ++ cB ++ pB ++ dB ++ tB)
  (s', flake?.map fun payload => payload ++ get_signature s' payload)

/-- The method `Flakely.generate`: the token bytes interpreted as a little-endian
integer. -/
def generate (s : State) (tick : Nat) (identifier : Nat) :
    State × Option Nat :=
  let r := generate_bytes s tick identifier
  (r.1, r.2.map fromBytesLE)

/-- The payload size used by `Flakely.validate`:
`COUNTER_SIZE + DEVICE_ID_SIZE + IDENTIFIER_SIZE + PROCESS_ID_SIZE +
TICK_SIZE = 18`. -/
def payload_size : Nat :=
  COUNTER_SIZE + DEVICE_ID_SIZE + IDENTIFIER_SIZE + PROCESS_ID_SIZE +
    TICK_SIZE

/-- The method `Flakely.validate`: re-encode the numeric token into 50 bytes
(raising, i.e. `none`, when the integer is negative or too large), split
into payload and signature, and compare the signature with the recomputed
digest. -/
def validate (s : State) (flake : Int) : Option Bool :=
  (intToBytes? (payload_size + SIGNATURE_SIZE) flake).map fun bts =>
    decide (bts.drop payload_size = get_signature s (bts.take payload_size))

/-- Repeated generation: perform `n` successive `generate_bytes` calls with
the same tick and identifier, returning the final state and the list of
per-call results in call order. -/
def genIter (s : State) (tick identifier : Nat) : Nat → State × List (Option (List Nat))
  | 0 => (s, [])
  | n + 1 =>
    let r := generate_bytes s tick identifier
    let rest := genIter r.1 tick identifier n
    (rest.1, r.2 :: rest.2)

/-! ## Derived forms and field extractors -/

/-- The 18 payload bytes of a token with the given field values. -/
def mkPayload (identifier counter process device tick : Nat) : List Nat :=
  toBytesLE 4 identifier ++ toBytesLE 2 counter ++ toBytesLE 4 process ++
    toBytesLE 4 device ++ toBytesLE 4 tick

/-- The full 50-byte token with the given field values and secret. -/
def mkToken (secret : List Nat) (identifier counter process device tick : Nat) :
    List Nat :=
  mkPayload identifier counter process device tick ++
    sha256 (mkPayload identifier counter process device tick ++ secret)

/-- The `identifier` field of a token's byte form (bytes 0..3,
little-endian). -/
def identifierField (t : List Nat) : Nat := fromBytesLE (t.take 4)

/-- The `counter` field of a token's byte form (bytes 4..5,
little-endian). -/
def counterField (t : List Nat) : Nat := fromBytesLE ((t.drop 4).take 2)

/-- The `process` field of a token's byte form (bytes 6..9,
little-endian). -/
def processField (t : List Nat) : Nat := fromBytesLE ((t.drop 6).take 4)

/-- The `device` field of a token's byte form (bytes 10..13,
little-endian). -/
def deviceField (t : List Nat) : Nat := fromBytesLE ((t.drop 10).take 4)

/-- The `tick` field of a token's byte form (bytes 14..17,
little-endian). -/
def tickField (t : List Nat) : Nat := fromBytesLE ((t.drop 14).take 4)

/-- The `signature` field of a token's byte form (bytes 18..49). -/
def signatureField (t : List Nat) : List Nat := t.drop 18

/-- A concrete instance for witnesses: `Flakely(device=0, process=0,
secret=b"")` in its freshly-constructed state. -/
def sample : State :=
  { device := 0, process := 0, secret := [], last_generated := 0,
    generation_counter := 0 }

/-- The sequencer state of `s` with `last_generated = tick` and
`generation_counter = c` (identity fields unchanged). -/
def withCounter (s : State) (tick c : Nat) : State :=
  { s with last_generated := tick, generation_counter := c }

/-! ## Lemmas about byte encoding -/

theorem length_toBytesLE (n v : Nat) : (toBytesLE n v).length = n := by
  induction n generalizing v with
  | zero => rfl
  | succ n ih => simp [toBytesLE, ih]

theorem length_toBytesBE (n v : Nat) : (toBytesBE n v).length = n := by
  simp [toBytesBE, length_toBytesLE]

theorem mem_toBytesLE_lt {n v b : Nat} (h : b ∈ toBytesLE n v) : b < 256 := by
  induction n generalizing v with
  | zero => simp [toBytesLE] at h
  | succ n ih =>
    simp only [toBytesLE, List.mem_cons] at h
    rcases h with h | h
    · exact h ▸ Nat.mod_lt _ (by norm_num)
    · exact ih h

theorem mem_toBytesBE_lt {n v b : Nat} (h : b ∈ toBytesBE n v) : b < 256 :=
  mem_toBytesLE_lt (List.mem_reverse.mp h)

theorem fromBytesLE_nil : fromBytesLE [] = 0 := rfl

theorem fromBytesLE_cons (b : Nat) (l : List Nat) :
    fromBytesLE (b :: l) = b + 256 * fromBytesLE l := rfl

theorem pow_mul_succ_256 (n : Nat) : 2 ^ (8 * (n + 1)) = 256 * 2 ^ (8 * n) := by
  rw [Nat.mul_succ, pow_add]
  ring

theorem fromBytesLE_toBytesLE {n v : Nat} (h : v < 2 ^ (8 * n)) :
    fromBytesLE (toBytesLE n v) = v := by
  induction n generalizing v with
  | zero =>
    interval_cases v
    rfl
  | succ n ih =>
    rw [pow_mul_succ_256] at h
    have hdiv : v / 256 < 2 ^ (8 * n) := by
      exact Nat.div_lt_of_lt_mul (by linarith [h])
    simp only [toBytesLE, fromBytesLE_cons, ih hdiv]
    exact Nat.mod_add_div v 256

theorem toBytesLE_fromBytesLE {l : List Nat} (hb : ∀ b ∈ l, b < 256) :
    toBytesLE l.length (fromBytesLE l) = l := by
  induction l with
  | nil => rfl
  | cons b rest ih =>
    have hblt : b < 256 := hb b (List.mem_cons_self _ _)
    simp only [List.length_cons, toBytesLE, fromBytesLE_cons]
    have h1 : (b + 256 * fromBytesLE rest) % 256 = b := by
      rw [Nat.add_mul_mod_self_left, Nat.mod_eq_of_lt hblt]
    have h2 : (b + 256 * fromBytesLE rest) / 256 = fromBytesLE rest := by
      rw [Nat.add_mul_div_left _ _ (by norm_num : (0:Nat) < 256),
        Nat.div_eq_of_lt hblt, Nat.zero_add]
    rw [h1, h2, ih fun x hx => hb x (List.mem_cons_of_mem _ hx)]

theorem fromBytesLE_lt {l : List Nat} (hb : ∀ b ∈ l, b < 256) :
    fromBytesLE l < 2 ^ (8 * l.length) := by
  induction l with
  | nil => simp [fromBytesLE_nil]
  | cons b rest ih =>
    have hblt : b < 256 := hb b (List.mem_cons_self _ _)
    have hr : fromBytesLE rest < 2 ^ (8 * rest.length) :=
      ih fun x hx => hb x (List.mem_cons_of_mem _ hx)
    simp only [fromBytesLE_cons, List.length_cons, pow_mul_succ_256]
    have h1 : b + 256 * fromBytesLE rest < 256 * (fromBytesLE rest + 1) := by
      omega
    have h2 : 256 * (fromBytesLE rest + 1) ≤ 256 * 2 ^ (8 * rest.length) :=
      Nat.mul_le_mul_left _ hr
    omega

theorem toBytes?_eq_some {n v : Nat} {b : List Nat} :
    toBytes? n v = some b ↔ v < 2 ^ (8 * n) ∧ b = toBytesLE n v := by
  unfold toBytes?
  split <;> simp_all [eq_comm]

theorem toBytes?_eq_none {n v : Nat} :
    toBytes? n v = none ↔ 2 ^ (8 * n) ≤ v := by
  unfold toBytes?
  split
  · rename_i h
    simp only [reduceCtorEq, false_iff]
    exact Nat.not_le.mpr h
  · rename_i h
    simp only [true_iff]
    exact Nat.not_lt.mp h

/-! ## SHA-256 output shape -/

theorem length_compressRound (st : List Nat) (wi ki : Nat) :
    (compressRound st wi ki).length = 8 := by
  simp [compressRound]

theorem length_foldl_compressRound (l : List (Nat × Nat)) (st : List Nat)
    (h : st.length = 8) :
    (l.foldl (fun st p => compressRound st p.1 p.2) st).length = 8 := by
  induction l generalizing st with
  | nil => exact h
  | cons p rest ih => exact ih _ (length_compressRound _ _ _)

theorem length_compress (h chunk : List Nat) (hh : h.length = 8) :
    (compress h chunk).length = 8 := by
  unfold compress
  rw [List.length_zipWith, hh, length_foldl_compressRound _ _ hh]
  simp

theorem length_processChunks (h msg : List Nat) (hh : h.length = 8) :
    (processChunks h msg).length = 8 := by
  rw [processChunks]
  split
  · exact hh
  · exact length_processChunks _ _ (length_compress _ _ hh)
termination_by msg.length
decreasing_by
  simp only [List.length_drop]
  rename_i hm
  have : 0 < msg.length := List.length_pos.mpr hm
  omega

theorem length_foldr_words (l : List Nat) :
    (l.foldr (fun wrd acc => toBytesBE 4 wrd ++ acc) []).length =
      4 * l.length := by
  induction l with
  | nil => rfl
  | cons w rest ih =>
    simp only [List.foldr_cons, List.length_append, length_toBytesBE, ih,
      List.length_cons]
    ring

theorem length_sha256 (msg : List Nat) : (sha256 msg).length = 32 := by
  unfold sha256
  rw [length_foldr_words, length_processChunks _ _ (by rfl)]

theorem mem_sha256_lt {msg : List Nat} {b : Nat} (h : b ∈ sha256 msg) :
    b < 256 := by
  unfold sha256 at h
  generalize processChunks sha2H0 (sha256pad msg) = ws at h
  induction ws with
  | nil => simp at h
  | cons w rest ih =>
    simp only [List.foldr_cons, List.mem_append] at h
    rcases h with h | h
    · exact mem_toBytesBE_lt h
    · exact ih h

/-! ## Lemmas about the sequencer -/

theorem update_counter_device (s : State) (tick : Nat) :
    (update_counter s tick).device = s.device := by
  unfold update_counter
  split <;> rfl

theorem update_counter_process (s : State) (tick : Nat) :
    (update_counter s tick).process = s.process := by
  unfold update_counter
  split <;> rfl

theorem update_counter_secret (s : State) (tick : Nat) :
    (update_counter s tick).secret = s.secret := by
  unfold update_counter
  split <;> rfl

theorem update_counter_last (s : State) (tick : Nat) :
    (update_counter s tick).last_generated = tick := by
  unfold update_counter
  split
  · rename_i h
    exact h.symm
  · rfl

theorem update_counter_same (s : State) (tick : Nat)
    (h : tick = s.last_generated) :
    (update_counter s tick).generation_counter = s.generation_counter + 1 := by
  unfold update_counter
  rw [if_pos h]

theorem update_counter_new (s : State) (tick : Nat)
    (h : tick ≠ s.last_generated) :
    (update_counter s tick).generation_counter = 0 := by
  unfold update_counter
  rw [if_neg h]

/-! ## Lemmas about generation -/

theorem generate_bytes_fst (s : State) (tick id : Nat) :
    (generate_bytes s tick id).1 = update_counter s tick := rfl

theorem toBytes?_pos {n v : Nat} (h : v < 2 ^ (8 * n)) :
    toBytes? n v = some (toBytesLE n v) := by
  simp [toBytes?, h]

theorem generate_bytes_success (s : State) (tick id : Nat)
    (hid : id < 2 ^ 32)
    (hc : (update_counter s tick).generation_counter < 2 ^ 16)
    (hp : s.process < 2 ^ 32) (hd : s.device < 2 ^ 32) (ht : tick < 2 ^ 32) :
    (generate_bytes s tick id).2 =
      some (mkToken s.secret id (update_counter s tick).generation_counter
        s.process s.device tick) := by
  have hid' : id < 2 ^ (8 * 4) := by simpa using hid
  have hc' : (update_counter s tick).generation_counter < 2 ^ (8 * 2) := by
    simpa using hc
  have hp' : s.process < 2 ^ (8 * 4) := by simpa using hp
  have hd' : s.device < 2 ^ (8 * 4) := by simpa using hd
  have ht' : tick < 2 ^ (8 * 4) := by simpa using ht
  simp only [generate_bytes, mkToken, mkPayload, get_signature,
    update_counter_process, update_counter_device, update_counter_secret,
    IDENTIFIER_SIZE, COUNTER_SIZE, PROCESS_ID_SIZE, DEVICE_ID_SIZE, TICK_SIZE,
    Option.bind_eq_bind, pure]
  simp only [toBytes?_pos hid', toBytes?_pos hc', toBytes?_pos hp',
    toBytes?_pos hd', toBytes?_pos ht', Option.some_bind, Option.map_some',
    Option.some.injEq, List.append_assoc]

theorem generate_bytes_none_of_id (s : State) (tick id : Nat)
    (h : 2 ^ 32 ≤ id) : (generate_bytes s tick id).2 = none := by
  have hn : toBytes? IDENTIFIER_SIZE id = none := by
    rw [toBytes?_eq_none]
    simpa [IDENTIFIER_SIZE] using h
  simp [generate_bytes, hn]

theorem generate_bytes_none_of_counter (s : State) (tick id : Nat)
    (h : 2 ^ 16 ≤ (update_counter s tick).generation_counter) :
    (generate_bytes s tick id).2 = none := by
  have hn : toBytes? COUNTER_SIZE (update_counter s tick).generation_counter
      = none := by
    rw [toBytes?_eq_none]
    simpa [COUNTER_SIZE] using h
  cases hh : toBytes? IDENTIFIER_SIZE id <;> simp [generate_bytes, hh, hn]

theorem generate_bytes_none_of_process (s : State) (tick id : Nat)
    (h : 2 ^ 32 ≤ s.process) : (generate_bytes s tick id).2 = none := by
  have hn : toBytes? PROCESS_ID_SIZE (update_counter s tick).process
      = none := by
    rw [toBytes?_eq_none, update_counter_process]
    simpa [PROCESS_ID_SIZE] using h
  cases hh : toBytes? IDENTIFIER_SIZE id <;>
    cases hc : toBytes? COUNTER_SIZE (update_counter s tick).generation_counter <;>
    simp [generate_bytes, hh, hc, update_counter_process] at hn ⊢ <;>
    simp [hn]

theorem generate_bytes_none_of_device (s : State) (tick id : Nat)
    (h : 2 ^ 32 ≤ s.device) : (generate_bytes s tick id).2 = none := by
  have hn : toBytes? DEVICE_ID_SIZE (update_counter s tick).device = none := by
    rw [toBytes?_eq_none, update_counter_device]
    simpa [DEVICE_ID_SIZE] using h
  cases hh : toBytes? IDENTIFIER_SIZE id <;>
    cases hc : toBytes? COUNTER_SIZE (update_counter s tick).generation_counter <;>
    cases hp : toBytes? PROCESS_ID_SIZE (update_counter s tick).process <;>
    simp [generate_bytes, hh, hc, hp, update_counter_device] at hn ⊢ <;>
    simp [hn]

theorem generate_bytes_none_of_tick (s : State) (tick id : Nat)
    (h : 2 ^ 32 ≤ tick) : (generate_bytes s tick id).2 = none := by
  have hn : toBytes? TICK_SIZE tick = none := by
    rw [toBytes?_eq_none]
    simpa [TICK_SIZE] using h
  cases hh : toBytes? IDENTIFIER_SIZE id <;>
    cases hc : toBytes? COUNTER_SIZE (update_counter s tick).generation_counter <;>
    cases hp : toBytes? PROCESS_ID_SIZE (update_counter s tick).process <;>
    cases hd : toBytes? DEVICE_ID_SIZE (update_counter s tick).device <;>
    simp [generate_bytes, hh, hc, hp, hd, hn]

theorem generate_bytes_eq_some_iff (s : State) (tick id : Nat)
    (t : List Nat) :
    (generate_bytes s tick id).2 = some t ↔
      id < 2 ^ 32 ∧ (update_counter s tick).generation_counter < 2 ^ 16 ∧
        s.process < 2 ^ 32 ∧ s.device < 2 ^ 32 ∧ tick < 2 ^ 32 ∧
        t = mkToken s.secret id (update_counter s tick).generation_counter
          s.process s.device tick := by
  constructor
  · intro h
    have h1 : id < 2 ^ 32 := by
      by_contra hc
      rw [generate_bytes_none_of_id s tick id (Nat.not_lt.mp hc)] at h
      cases h
    have h2 : (update_counter s tick).generation_counter < 2 ^ 16 := by
      by_contra hc
      rw [generate_bytes_none_of_counter s tick id (Nat.not_lt.mp hc)] at h
      cases h
    have h3 : s.process < 2 ^ 32 := by
      by_contra hc
      rw [generate_bytes_none_of_process s tick id (Nat.not_lt.mp hc)] at h
      cases h
    have h4 : s.device < 2 ^ 32 := by
      by_contra hc
      rw [generate_bytes_none_of_device s tick id (Nat.not_lt.mp hc)] at h
      cases h
    have h5 : tick < 2 ^ 32 := by
      by_contra hc
      rw [generate_bytes_none_of_tick s tick id (Nat.not_lt.mp hc)] at h
      cases h
    rw [generate_bytes_success s tick id h1 h2 h3 h4 h5] at h
    exact ⟨h1, h2, h3, h4, h5, (Option.some.inj h).symm⟩
  · rintro ⟨h1, h2, h3, h4, h5, rfl⟩
    exact generate_bytes_success s tick id h1 h2 h3 h4 h5

/-! ## Token shape and field extraction -/

theorem length_mkPayload (identifier c p d t : Nat) :
    (mkPayload identifier c p d t).length = 18 := by
  simp [mkPayload, length_toBytesLE]

theorem length_mkToken (secret : List Nat) (identifier c p d t : Nat) :
    (mkToken secret identifier c p d t).length = 50 := by
  simp [mkToken, length_mkPayload, length_sha256]

theorem mem_mkPayload_lt {identifier c p d t b : Nat}
    (h : b ∈ mkPayload identifier c p d t) : b < 256 := by
  simp only [mkPayload, List.mem_append] at h
  rcases h with ((((h | h) | h) | h) | h) <;> exact mem_toBytesLE_lt h

theorem mem_mkToken_lt {secret : List Nat} {identifier c p d t b : Nat}
    (h : b ∈ mkToken secret identifier c p d t) : b < 256 := by
  simp only [mkToken, List.mem_append] at h
  rcases h with h | h
  · exact mem_mkPayload_lt h
  · exact mem_sha256_lt h

theorem fromBytesLE_mkToken_lt (secret : List Nat) (identifier c p d t : Nat) :
    fromBytesLE (mkToken secret identifier c p d t) < 2 ^ 400 := by
  have h := @fromBytesLE_lt (mkToken secret identifier c p d t)
    (fun b hb => mem_mkToken_lt hb)
  rwa [length_mkToken] at h

theorem identifierField_mkToken (secret : List Nat) (identifier c p d t : Nat)
    (h : identifier < 2 ^ 32) :
    identifierField (mkToken secret identifier c p d t) = identifier := by
  unfold identifierField mkToken mkPayload
  simp only [List.append_assoc]
  rw [List.take_left' (length_toBytesLE 4 identifier)]
  exact fromBytesLE_toBytesLE (by simpa using h)

theorem counterField_mkToken (secret : List Nat) (identifier c p d t : Nat)
    (h : c < 2 ^ 16) :
    counterField (mkToken secret identifier c p d t) = c := by
  unfold counterField mkToken mkPayload
  simp only [List.append_assoc]
  rw [List.drop_left' (length_toBytesLE 4 identifier),
    List.take_left' (length_toBytesLE 2 c)]
  exact fromBytesLE_toBytesLE (by simpa using h)

theorem processField_mkToken (secret : List Nat) (identifier c p d t : Nat)
    (h : p < 2 ^ 32) :
    processField (mkToken secret identifier c p d t) = p := by
  unfold processField mkToken mkPayload
  simp only [List.append_assoc]
  rw [show (6 : Nat) = 4 + 2 from rfl, ← List.drop_drop,
    List.drop_left' (length_toBytesLE 4 identifier),
    List.drop_left' (length_toBytesLE 2 c),
    List.take_left' (length_toBytesLE 4 p)]
  exact fromBytesLE_toBytesLE (by simpa using h)

theorem deviceField_mkToken (secret : List Nat) (identifier c p d t : Nat)
    (h : d < 2 ^ 32) :
    deviceField (mkToken secret identifier c p d t) = d := by
  unfold deviceField mkToken mkPayload
  simp only [List.append_assoc]
  rw [show (10 : Nat) = 4 + 2 + 4 from rfl, ← List.drop_drop, ← List.drop_drop,
    List.drop_left' (length_toBytesLE 4 identifier),
    List.drop_left' (length_toBytesLE 2 c),
    List.drop_left' (length_toBytesLE 4 p),
    List.take_left' (length_toBytesLE 4 d)]
  exact fromBytesLE_toBytesLE (by simpa using h)

theorem tickField_mkToken (secret : List Nat) (identifier c p d t : Nat)
    (h : t < 2 ^ 32) :
    tickField (mkToken secret identifier c p d t) = t := by
  unfold tickField mkToken mkPayload
  simp only [List.append_assoc]
  rw [show (14 : Nat) = 4 + 2 + 4 + 4 from rfl, ← List.drop_drop,
    ← List.drop_drop, ← List.drop_drop,
    List.drop_left' (length_toBytesLE 4 identifier),
    List.drop_left' (length_toBytesLE 2 c),
    List.drop_left' (length_toBytesLE 4 p),
    List.drop_left' (length_toBytesLE 4 d),
    List.take_left' (length_toBytesLE 4 t)]
  exact fromBytesLE_toBytesLE (by simpa using h)

theorem signatureField_mkToken (secret : List Nat) (identifier c p d t : Nat) :
    signatureField (mkToken secret identifier c p d t) =
      sha256 (mkPayload identifier c p d t ++ secret) := by
  unfold signatureField mkToken
  rw [List.drop_left' (length_mkPayload identifier c p d t)]

theorem mkToken_take_18 (secret : List Nat) (identifier c p d t : Nat) :
    (mkToken secret identifier c p d t).take 18 =
      mkPayload identifier c p d t := by
  unfold mkToken
  rw [List.take_left' (length_mkPayload identifier c p d t)]

theorem validate_mkToken (s : State) (identifier c p d t : Nat) :
    validate s (fromBytesLE (mkToken s.secret identifier c p d t) : Int) =
      some true := by
  have hmem : ∀ b ∈ mkToken s.secret identifier c p d t, b < 256 :=
    fun b hb => mem_mkToken_lt hb
  have hlt := fromBytesLE_mkToken_lt s.secret identifier c p d t
  have hcond : (0 : Int) ≤
        (fromBytesLE (mkToken s.secret identifier c p d t) : Int) ∧
      (fromBytesLE (mkToken s.secret identifier c p d t) : Int) <
        2 ^ (8 * (payload_size + SIGNATURE_SIZE)) := by
    refine ⟨Int.natCast_nonneg _, ?_⟩
    have : (8 * (payload_size + SIGNATURE_SIZE)) = 400 := by
      simp [payload_size, SIGNATURE_SIZE, COUNTER_SIZE, DEVICE_ID_SIZE,
        IDENTIFIER_SIZE, PROCESS_ID_SIZE, TICK_SIZE]
    rw [this]
    exact_mod_cast hlt
  have hround : toBytesLE 50
      (fromBytesLE (mkToken s.secret identifier c p d t)) =
      mkToken s.secret identifier c p d t := by
    have h := toBytesLE_fromBytesLE hmem
    rwa [length_mkToken] at h
  have hdrop : (mkToken s.secret identifier c p d t).drop 18 =
      sha256 (mkPayload identifier c p d t ++ s.secret) := by
    unfold mkToken
    rw [List.drop_left' (length_mkPayload identifier c p d t)]
  have htonat : ((fromBytesLE (mkToken s.secret identifier c p d t) : Int)).toNat
      = fromBytesLE (mkToken s.secret identifier c p d t) := Int.toNat_natCast _
  have hsize : payload_size + SIGNATURE_SIZE = 50 := by
    simp [payload_size, SIGNATURE_SIZE, COUNTER_SIZE, DEVICE_ID_SIZE,
      IDENTIFIER_SIZE, PROCESS_ID_SIZE, TICK_SIZE]
  have hps : payload_size = 18 := by
    simp [payload_size, COUNTER_SIZE, DEVICE_ID_SIZE, IDENTIFIER_SIZE,
      PROCESS_ID_SIZE, TICK_SIZE]
  unfold validate intToBytes?
  rw [if_pos hcond]
  simp only [Option.map_some']
  rw [htonat, hsize, hround, hps, mkToken_take_18, hdrop]
  simp [get_signature]

/-! ## Repeated generation within one tick -/

theorem update_counter_withCounter (s : State) (tick c : Nat) :
    update_counter (withCounter s tick c) tick = withCounter s tick (c + 1) := by
  unfold update_counter withCounter
  simp

theorem generate_bytes_withCounter (s : State) (tick id c : Nat)
    (hid : id < 2 ^ 32) (hc : c + 1 < 2 ^ 16) (hp : s.process < 2 ^ 32)
    (hd : s.device < 2 ^ 32) (ht : tick < 2 ^ 32) :
    generate_bytes (withCounter s tick c) tick id =
      (withCounter s tick (c + 1),
       some (mkToken s.secret id (c + 1) s.process s.device tick)) := by
  have hc' : (update_counter (withCounter s tick c) tick).generation_counter <
      2 ^ 16 := by
    rw [update_counter_withCounter]
    simpa [withCounter] using hc
  have h2 := generate_bytes_success (withCounter s tick c) tick id hid hc'
    (by simpa [withCounter] using hp) (by simpa [withCounter] using hd) ht
  refine Prod.ext ?_ ?_
  · rw [generate_bytes_fst, update_counter_withCounter]
  · rw [h2, update_counter_withCounter]
    simp [withCounter]

theorem generate_bytes_withCounter_fail (s : State) (tick id c : Nat)
    (hc : 2 ^ 16 ≤ c + 1) :
    generate_bytes (withCounter s tick c) tick id =
      (withCounter s tick (c + 1), none) := by
  refine Prod.ext ?_ ?_
  · rw [generate_bytes_fst, update_counter_withCounter]
  · apply generate_bytes_none_of_counter
    rw [update_counter_withCounter]
    simpa [withCounter] using hc

theorem generate_bytes_newTick (s : State) (tick id : Nat)
    (hne : tick ≠ s.last_generated) (hid : id < 2 ^ 32)
    (hp : s.process < 2 ^ 32) (hd : s.device < 2 ^ 32) (ht : tick < 2 ^ 32) :
    generate_bytes s tick id =
      (withCounter s tick 0,
       some (mkToken s.secret id 0 s.process s.device tick)) := by
  have h0 : update_counter s tick = withCounter s tick 0 := by
    unfold update_counter withCounter
    rw [if_neg hne]
  have hc' : (update_counter s tick).generation_counter < 2 ^ 16 := by
    rw [h0]
    simp [withCounter]
  refine Prod.ext ?_ ?_
  · rw [generate_bytes_fst, h0]
  · rw [generate_bytes_success s tick id hid hc' hp hd ht, h0]
    simp [withCounter]

theorem genIter_withCounter (s : State) (tick id : Nat) (n c : Nat)
    (hid : id < 2 ^ 32) (hcn : c + n < 2 ^ 16) (hp : s.process < 2 ^ 32)
    (hd : s.device < 2 ^ 32) (ht : tick < 2 ^ 32) :
    genIter (withCounter s tick c) tick id n =
      (withCounter s tick (c + n),
       (List.range n).map fun i =>
         some (mkToken s.secret id (c + 1 + i) s.process s.device tick)) := by
  induction n generalizing c with
  | zero => simp [genIter]
  | succ n ih =>
    have hstep := generate_bytes_withCounter s tick id c hid (by omega) hp hd ht
    have hrest := ih (c + 1) (by omega)
    have harith : ∀ i : Nat, c + 1 + 1 + i = c + 1 + (i + 1) := by omega
    simp only [genIter, hstep, hrest, List.range_succ_eq_map, List.map_map,
      List.map_cons, Function.comp_def, Nat.succ_eq_add_one, harith,
      Nat.add_zero, Prod.mk.injEq]
    constructor
    · rw [show c + 1 + n = c + (n + 1) from by omega]
    · trivial

theorem genIter_newTick (s : State) (tick id N : Nat)
    (hne : tick ≠ s.last_generated) (hN : N ≤ 2 ^ 16)
    (hid : id < 2 ^ 32) (hp : s.process < 2 ^ 32) (hd : s.device < 2 ^ 32)
    (ht : tick < 2 ^ 32) :
    (genIter s tick id N).2 =
      (List.range N).map fun i =>
        some (mkToken s.secret id i s.process s.device tick) := by
  cases N with
  | zero => simp [genIter]
  | succ n =>
    have hstep := generate_bytes_newTick s tick id hne hid hp hd ht
    have hrest := genIter_withCounter s tick id n 0 hid (by omega) hp hd ht
    have harith : ∀ i : Nat, 0 + 1 + i = i + 1 := by omega
    simp only [genIter, hstep, hrest, List.range_succ_eq_map, List.map_map,
      List.map_cons, Function.comp_def, Nat.succ_eq_add_one, harith,
      Nat.add_zero, Nat.zero_add]

theorem genIter_add (s : State) (tick id m n : Nat) :
    genIter s tick id (m + n) =
      ((genIter (genIter s tick id m).1 tick id n).1,
       (genIter s tick id m).2 ++ (genIter (genIter s tick id m).1 tick id n).2) := by
  induction m generalizing s with
  | zero => simp [genIter]
  | succ m ih =>
    rw [show m + 1 + n = (m + n) + 1 from by omega]
    simp only [genIter, ih, List.cons_append]

theorem genIter_one (s : State) (tick id : Nat) :
    genIter s tick id 1 =
      ((generate_bytes s tick id).1, [(generate_bytes s tick id).2]) := by
  simp [genIter]

theorem genIter_add_snd (s : State) (tick id m n : Nat) :
    (genIter s tick id (m + n)).2 =
      (genIter s tick id m).2 ++
        (genIter (genIter s tick id m).1 tick id n).2 := by
  rw [genIter_add]

theorem generate_snd (s : State) (tick id : Nat) :
    (generate s tick id).2 = (generate_bytes s tick id).2.map fromBytesLE := rfl

/-! ## Lemmas about validation -/

theorem validate_none_iff (s : State) (flake : Int) :
    validate s flake = none ↔ ¬(0 ≤ flake ∧ flake < 2 ^ 400) := by
  have hsize : 8 * (payload_size + SIGNATURE_SIZE) = 400 := by
    simp [payload_size, SIGNATURE_SIZE, COUNTER_SIZE, DEVICE_ID_SIZE,
      IDENTIFIER_SIZE, PROCESS_ID_SIZE, TICK_SIZE]
  unfold validate intToBytes?
  rw [hsize]
  split
  · rename_i h
    simp [h]
  · rename_i h
    simp [h]

theorem update_counter_ne (s : State) (tick : Nat) :
    update_counter s tick ≠ s := by
  unfold update_counter
  split
  · intro hcontra
    have := congrArg State.generation_counter hcontra
    simp at this
  · rename_i hne
    intro hcontra
    have := congrArg State.last_generated hcontra
    simp at this
    exact hne this

/-! ## The claims -/

/-- C1: for every generator instance and every identifier in `[0, 2^32)`
(under the field-width side conditions that make `generate` succeed at
all), calling `generate` and then immediately calling `validate` on the
resulting token with the same instance (same secret) returns `true`. -/
theorem generate_then_validate (s : State) (tick id : Nat)
    (hid : id < 2 ^ 32)
    (hc : (update_counter s tick).generation_counter < 2 ^ 16)
    (hp : s.process < 2 ^ 32) (hd : s.device < 2 ^ 32) (ht : tick < 2 ^ 32) :
    ∃ n : Nat, (generate s tick id).2 = some n ∧
      validate (generate s tick id).1 (n : Int) = some true := by
  have hgb := generate_bytes_success s tick id hid hc hp hd ht
  refine ⟨fromBytesLE (mkToken s.secret id
    (update_counter s tick).generation_counter s.process s.device tick),
    ?_, ?_⟩
  · rw [generate_snd, hgb]
    rfl
  · have hfst : (generate s tick id).1 = update_counter s tick := rfl
    rw [hfst, show s.secret = (update_counter s tick).secret from
      (update_counter_secret s tick).symm]
    exact validate_mkToken (update_counter s tick) id _ s.process s.device tick

theorem generate_then_validate_witness :
    ∃ n : Nat, (generate sample 1 3).2 = some n ∧
      validate (generate sample 1 3).1 (n : Int) = some true :=
  generate_then_validate sample 1 3 (by norm_num) (by decide)
    (by norm_num [sample]) (by norm_num [sample]) (by norm_num)

/-- C4: `update_counter tick` increments the counter by exactly one when
`tick` equals the stored `last_generated`, and otherwise stores `tick` and
resets the counter to 0; consequently, whenever the tick differs between
two consecutive `generate` calls, the second token's counter field is 0
regardless of the first call's counter value (including when the new tick
is smaller). -/
theorem update_counter_spec_and_tick_rollover (s : State) (tick1 : Nat) :
    (update_counter s tick1 =
      if tick1 = s.last_generated then
        { s with generation_counter := s.generation_counter + 1 }
      else { s with last_generated := tick1, generation_counter := 0 }) ∧
    (∀ tick2 id1 id2 : Nat, tick2 ≠ tick1 → id2 < 2 ^ 32 →
      s.process < 2 ^ 32 → s.device < 2 ^ 32 → tick2 < 2 ^ 32 →
      ∃ t, (generate_bytes (generate_bytes s tick1 id1).1 tick2 id2).2 =
          some t ∧ counterField t = 0) := by
  constructor
  · rfl
  · intro tick2 id1 id2 hne hid hp hd ht
    have hlast : (generate_bytes s tick1 id1).1.last_generated = tick1 := by
      rw [generate_bytes_fst, update_counter_last]
    have hne' : tick2 ≠ (generate_bytes s tick1 id1).1.last_generated := by
      rw [hlast]
      exact hne
    have hp1 : (generate_bytes s tick1 id1).1.process = s.process := by
      rw [generate_bytes_fst, update_counter_process]
    have hd1 : (generate_bytes s tick1 id1).1.device = s.device := by
      rw [generate_bytes_fst, update_counter_device]
    have hstep := generate_bytes_newTick (generate_bytes s tick1 id1).1 tick2
      id2 hne' hid (by rw [hp1]; exact hp) (by rw [hd1]; exact hd) ht
    refine ⟨mkToken (generate_bytes s tick1 id1).1.secret id2 0
      (generate_bytes s tick1 id1).1.process
      (generate_bytes s tick1 id1).1.device tick2, ?_, ?_⟩
    · rw [hstep]
    · exact counterField_mkToken _ _ _ _ _ _ (by norm_num)

theorem update_counter_spec_and_tick_rollover_witness :
    ∃ t, (generate_bytes (generate_bytes sample 3 1).1 5 2).2 = some t ∧
      counterField t = 0 :=
  (update_counter_spec_and_tick_rollover sample 3).2 5 1 2 (by norm_num)
    (by norm_num) (by norm_num [sample]) (by norm_num [sample]) (by norm_num)

/-- C5: every successfully generated token is exactly 50 bytes, laid out as
identifier (4 bytes), counter (2 bytes), process (4 bytes), device
(4 bytes), tick (4 bytes), signature (32 bytes), every multi-byte field
little-endian; and the numeric token returned by `generate` is the
little-endian big-integer interpretation of those 50 bytes. -/
theorem token_layout (s : State) (tick id : Nat) (t : List Nat)
    (h : (generate_bytes s tick id).2 = some t) :
    t.length = 50 ∧
      t = toBytesLE 4 id ++
        (toBytesLE 2 (update_counter s tick).generation_counter ++
          (toBytesLE 4 s.process ++
            (toBytesLE 4 s.device ++ (toBytesLE 4 tick ++ signatureField t)))) ∧
      (signatureField t).length = 32 ∧
      (generate s tick id).2 = some (fromBytesLE t) := by
  obtain ⟨h1, h2, h3, h4, h5, rfl⟩ :=
    (generate_bytes_eq_some_iff s tick id t).mp h
  refine ⟨length_mkToken _ _ _ _ _ _, ?_, ?_, ?_⟩
  · rw [signatureField_mkToken]
    simp [mkToken, mkPayload, List.append_assoc]
  · rw [signatureField_mkToken]
    exact length_sha256 _
  · rw [generate_snd, h]
    rfl

theorem token_layout_witness :
    (mkToken sample.secret 3 (update_counter sample 1).generation_counter
      sample.process sample.device 1).length = 50 :=
  (token_layout sample 1 3 _ (generate_bytes_success sample 1 3 (by norm_num)
    (by decide) (by norm_num [sample]) (by norm_num [sample])
    (by norm_num))).1

/-- C6: the signature appended to a token is the 32-byte SHA-256 digest of
the payload bytes concatenated with the secret bytes, payload first; it is
a deterministic function of the payload and the secret. -/
theorem signature_spec (s : State) (payload : List Nat) :
    get_signature s payload = sha256 (payload ++ s.secret) ∧
      (get_signature s payload).length = 32 ∧
      ∀ (s2 : State) (payload2 : List Nat), s2.secret = s.secret →
        payload2 = payload → get_signature s2 payload2 =
          get_signature s payload := by
  refine ⟨rfl, ?_, ?_⟩
  · unfold get_signature
    exact length_sha256 _
  · rintro s2 p2 hsec rfl
    unfold get_signature
    rw [hsec]

theorem signature_spec_witness :
    get_signature (withCounter sample 9 3) [1, 2] =
      get_signature sample [1, 2] :=
  (signature_spec sample [1, 2]).2.2 (withCounter sample 9 3) [1, 2] rfl rfl

/-- C7: for every identifier value that does not fit in 4 unsigned bytes
(`identifier ≥ 2^32`), `generate` fails (raises `OverflowError`) and
produces no token. -/
theorem out_of_range_identifier_fails (s : State) (tick id : Nat)
    (h : 2 ^ 32 ≤ id) :
    (generate_bytes s tick id).2 = none ∧ (generate s tick id).2 = none := by
  have h1 := generate_bytes_none_of_id s tick id h
  exact ⟨h1, by rw [generate_snd, h1]; rfl⟩

theorem out_of_range_identifier_fails_witness :
    (generate_bytes sample 1 4294967296).2 = none ∧
      (generate sample 1 4294967296).2 = none :=
  out_of_range_identifier_fails sample 1 4294967296 (by norm_num)

/-- C8: `validate` raises (returns no boolean) exactly when its numeric
token argument is not representable in 50 bytes, i.e. negative or at least
`2^400`; for every representable value it returns a boolean, so a signature
mismatch is the normal result `false`, never an error. -/
theorem validate_error_characterization (s : State) (flake : Int) :
    (validate s flake = none ↔ (flake < 0 ∨ 2 ^ 400 ≤ flake)) ∧
      ((∃ b, validate s flake = some b) ↔
        (0 ≤ flake ∧ flake < 2 ^ 400)) := by
  have hn := validate_none_iff s flake
  constructor
  · rw [hn, not_and_or, Int.not_le, Int.not_lt]
  · constructor
    · rintro ⟨b, hb⟩
      by_contra hP
      rw [hn.mpr hP] at hb
      cases hb
    · intro hP
      cases hv : validate s flake with
      | none => exact absurd hP (hn.mp hv)
      | some b => exact ⟨b, rfl⟩

/-- C9: the claim says a generator constructed without an explicit
`process` argument stores the OS-provided identifier of the owning
process.  The code instead stores `os.P_PID`, the POSIX `waitid` id-type
constant (value 1 on Linux), which is the same fixed value in every
process — a slip for `os.getpid()`.  This theorem evaluates the code's
default: it is the constant `os_P_PID = 1`, independent of the
constructing process. -/
theorem default_process_is_waitid_constant (secret : List Nat)
    (envRandom : Nat) :
    (init none none secret envRandom).process = os_P_PID ∧ os_P_PID = 1 :=
  ⟨rfl, rfl⟩

/-- C10: `generate` updates the sequencer state (via `update_counter`)
before encoding the identifier, so when `generate` fails because the
identifier is out of range, the sequencer state has nevertheless already
been mutated — the error is not atomic with respect to generator state. -/
theorem sequencer_mutated_before_range_check (s : State) (tick id : Nat) :
    (generate_bytes s tick id).1 = update_counter s tick ∧
      update_counter s tick ≠ s ∧
      (2 ^ 32 ≤ id → (generate_bytes s tick id).2 = none) :=
  ⟨generate_bytes_fst s tick id, update_counter_ne s tick,
    fun h => generate_bytes_none_of_id s tick id h⟩

theorem sequencer_mutated_before_range_check_witness :
    (generate_bytes sample 1 4294967296).1 = update_counter sample 1 ∧
      update_counter sample 1 ≠ sample ∧
      (generate_bytes sample 1 4294967296).2 = none :=
  ⟨(sequencer_mutated_before_range_check sample 1 4294967296).1,
    (sequencer_mutated_before_range_check sample 1 4294967296).2.1,
    (sequencer_mutated_before_range_check sample 1 4294967296).2.2
      (by norm_num)⟩

/-- C2: for a fixed instance and fixed identifier, calling `generate` N
times (N < 65536) while the tick stays the same for every call — the N
calls starting in a fresh tick — yields N tokens whose counter fields are
exactly `0..N-1` in call order, with identifier, process, device and tick
fields identical across all N tokens. -/
theorem same_tick_counter_sequence (s : State) (tick id N : Nat)
    (hne : tick ≠ s.last_generated) (hN : N < 65536) (hid : id < 2 ^ 32)
    (hp : s.process < 2 ^ 32) (hd : s.device < 2 ^ 32) (ht : tick < 2 ^ 32) :
    ∀ i < N, ∃ t : List Nat,
      (genIter s tick id N).2[i]? = some (some t) ∧
        counterField t = i ∧ identifierField t = id ∧
        processField t = s.process ∧ deviceField t = s.device ∧
        tickField t = tick := by
  intro i hi
  rw [genIter_newTick s tick id N hne (by norm_num; omega) hid hp hd ht]
  refine ⟨mkToken s.secret id i s.process s.device tick, ?_, ?_, ?_, ?_, ?_, ?_⟩
  · rw [List.getElem?_map, List.getElem?_range hi]
    rfl
  · exact counterField_mkToken s.secret id i s.process s.device tick
      (by norm_num; omega)
  · exact identifierField_mkToken s.secret id i s.process s.device tick hid
  · exact processField_mkToken s.secret id i s.process s.device tick hp
  · exact deviceField_mkToken s.secret id i s.process s.device tick hd
  · exact tickField_mkToken s.secret id i s.process s.device tick ht

theorem same_tick_counter_sequence_witness :
    ∃ t : List Nat, (genIter sample 1 2 3).2[1]? = some (some t) ∧
      counterField t = 1 ∧ identifierField t = 2 ∧
      processField t = sample.process ∧ deviceField t = sample.device ∧
      tickField t = 1 :=
  same_tick_counter_sequence sample 1 2 3 (by decide) (by norm_num)
    (by norm_num) (by norm_num [sample]) (by norm_num [sample])
    (by norm_num) 1 (by norm_num)

/-- C3 counterexample: starting from a fresh instance, the 65537th
`generate` call within one tick does not succeed with a wrapped counter of
0 — it produces no token at all (`counter.to_bytes(2, "little")` raises
`OverflowError` in Python), refuting the claimed silent two-byte
truncation. -/
theorem counter_no_silent_wrap_cex :
    (genIter sample 1 0 65537).2[65536]? = some none := by
  have hstep := generate_bytes_newTick sample 1 0 (by decide) (by norm_num)
    (by norm_num [sample]) (by norm_num [sample]) (by norm_num)
  have h1 : genIter sample 1 0 1 =
      (withCounter sample 1 0,
        [some (mkToken sample.secret 0 0 sample.process sample.device 1)]) := by
    rw [genIter_one, hstep]
  have e1 : (genIter sample 1 0 1).1 = withCounter sample 1 0 := by
    rw [h1]
  have e2 : (genIter sample 1 0 1).2 =
      [some (mkToken sample.secret 0 0 sample.process sample.device 1)] := by
    rw [h1]
  have hmid := genIter_withCounter sample 1 0 65535 0 (by norm_num)
    (by norm_num) (by norm_num [sample]) (by norm_num [sample]) (by norm_num)
  have e3 : (genIter (withCounter sample 1 0) 1 0 65535).1 =
      withCounter sample 1 65535 := by
    rw [hmid]
  have e4 : (genIter (withCounter sample 1 0) 1 0 65535).2 =
      (List.range 65535).map fun i =>
        some (mkToken sample.secret 0 (0 + 1 + i) sample.process
          sample.device 1) := by
    rw [hmid]
  have hfail := generate_bytes_withCounter_fail sample 1 0 65535 (by norm_num)
  have e5 : (genIter (withCounter sample 1 65535) 1 0 1).2 = [none] := by
    rw [genIter_one, hfail]
  have hmidall : (genIter (withCounter sample 1 0) 1 0 65536).2 =
      ((List.range 65535).map fun i =>
        some (mkToken sample.secret 0 (0 + 1 + i) sample.process
          sample.device 1)) ++ [none] := by
    rw [show (65536 : Nat) = 65535 + 1 from rfl, genIter_add_snd, e3, e4, e5]
  have hall : (genIter sample 1 0 65537).2 =
      [some (mkToken sample.secret 0 0 sample.process sample.device 1)] ++
        (((List.range 65535).map fun i =>
          some (mkToken sample.secret 0 (0 + 1 + i) sample.process
            sample.device 1)) ++ [none]) := by
    rw [show (65537 : Nat) = 1 + 65536 from rfl, genIter_add_snd, e1, e2,
      hmidall]
  rw [hall, List.getElem?_append_right (by norm_num),
    List.getElem?_append_right (by simp)]
  simp

/-- C3 (amended): if more than 65536 `generate` calls occur within the same
tick, the counter does not silently wrap to 0.  On the call whose
incremented counter no longer fits in two bytes (the 65537th call in one
tick), `generate` fails with an `OverflowError` (no token); the counter
state is nevertheless incremented. -/
theorem counter_overflow_raises_no_wrap (s : State) (tick id : Nat)
    (hsame : tick = s.last_generated)
    (hc : 2 ^ 16 ≤ s.generation_counter + 1) :
    (generate_bytes s tick id).2 = none ∧
      (generate_bytes s tick id).1.generation_counter =
        s.generation_counter + 1 := by
  constructor
  · apply generate_bytes_none_of_counter
    rw [update_counter_same s tick hsame]
    exact hc
  · rw [generate_bytes_fst, update_counter_same s tick hsame]

theorem counter_overflow_raises_no_wrap_witness :
    (generate_bytes (withCounter sample 5 65535) 5 0).2 = none ∧
      (generate_bytes (withCounter sample 5 65535) 5 0).1.generation_counter =
        (withCounter sample 5 65535).generation_counter + 1 :=
  counter_overflow_raises_no_wrap (withCounter sample 5 65535) 5 0 rfl
    (by decide)

end Flakely
